import Mathlib

/-!
# Verification of the `object-store-python` façade

A shallow embedding of `src/object-store/python/object_store/__init__.py`
(the Python façade over the Rust-backed `_internal` module) together with a
model of the backing object store.  The façade functions (`_as_path`,
`_as_bytes`, and the `ObjectStore` wrapper methods) are translated directly
from the Python source.  The backing `_internal` operations (`Path` parsing
and the primitive store operations) are not shipped in this repository's
sources, so they are modelled from the specification, as marked in each
doc comment.
-/

set_option autoImplicit false

namespace ObjectStorePython

/-- The path delimiter, translated from `DELIMITER = "/"` in `__init__.py`. -/
def DELIMITER : String := "/"

/-- A hierarchical object path: an ordered sequence of segments.
Modelled from the spec: "an ordered sequence of non-empty path segments
(strings)"; two Paths are equal iff their segment sequences are equal. -/
structure Path where
  segments : List String
deriving DecidableEq, Repr

/-- Modelled from the spec: a segment "must not contain the path delimiter
character and must not be empty or equal to `.`/`..`". -/
def validSegment (s : String) : Bool :=
  s ≠ "" && s ≠ "." && s ≠ ".." && !(s.data.contains '/')

/-- Split a character list at every occurrence of `sep`, keeping empty
pieces, with the semantics of Python's `str.split(sep)`. -/
def splitChars (sep : Char) : List Char → List Char → List (List Char)
  | [], acc => [acc.reverse]
  | c :: cs, acc =>
      if c = sep then acc.reverse :: splitChars sep cs []
      else splitChars sep cs (c :: acc)

/-- Split a string on the path delimiter, keeping empty pieces. -/
def splitOnDelim (s : String) : List String :=
  (splitChars '/' s.data []).map (fun cs => String.mk cs)

/-- The error taxonomy. Modelled from the spec (§7): `InvalidPath`,
`NotFound`, `AlreadyExists`, `OutOfRange`, `Backend`. -/
inductive StoreError where
  | invalidPath
  | notFound
  | alreadyExists
  | outOfRange
  | backend
deriving DecidableEq, Repr

/-- Modelled from the spec: `Path` construction from a raw string splits on
the delimiter, discards empty segments produced by leading, trailing or
duplicate delimiters, and rejects any remaining segment that fails
validation, failing with `InvalidPath`.  This models the `_internal.Path`
constructor, which is not part of this repository's sources. -/
def Path.parse (raw : String) : Except StoreError Path :=
  let segs := (splitOnDelim raw).filter (fun s => s ≠ "")
  if segs.all validSegment then .ok ⟨segs⟩ else .error .invalidPath

/-- The accepted path-like input shapes, translated from
`PathLike = Union[str, List[str], Path]`. -/
inductive PathLike where
  | str (s : String)
  | segs (l : List String)
  | path (p : Path)
deriving DecidableEq, Repr

/-- Translated from `_as_path` in `__init__.py`: a string is handed to the
`Path` constructor, a list is joined with `DELIMITER` and handed to the
`Path` constructor, and a `Path` value is passed through unchanged. -/
def asPath : PathLike → Except StoreError Path
  | .str s => Path.parse s
  | .segs l => Path.parse (String.intercalate DELIMITER l)
  | .path p => .ok p

/-- A byte payload, one entry per byte. -/
abbrev Bytes := List Nat

/-- The accepted payload shapes, translated from
`BytesLike = Union[bytes, BytesIO]`. -/
inductive BytesLike where
  | bytes (b : Bytes)
  | bytesIo (b : Bytes)
deriving DecidableEq, Repr

/-- Translated from `_as_bytes` in `__init__.py`: raw bytes pass through,
a `BytesIO` is drained with `.read()`. -/
def asBytes : BytesLike → Bytes
  | .bytes b => b
  | .bytesIo b => b

/-- The backing store state: a finite map from paths to byte payloads,
represented as an association list (first binding wins).
Modelled from the spec: objects are "opaque byte blobs addressed by
hierarchical paths". -/
abbrev Store := List (Path × Bytes)

/-- Look up the payload bound to `p`, if any. -/
def Store.find : Store → Path → Option Bytes
  | [], _ => none
  | (q, b) :: rest, p => if q = p then some b else Store.find rest p

/-- Remove every binding for `p`. -/
def Store.erase : Store → Path → Store
  | [], _ => []
  | (q, b) :: rest, p =>
      if q = p then Store.erase rest p else (q, b) :: Store.erase rest p

/-- Bind `p` to `b`, overwriting any previous binding. -/
def Store.insert (s : Store) (p : Path) (b : Bytes) : Store :=
  (p, b) :: Store.erase s p

@[simp] theorem Store.find_insert_self (s : Store) (p : Path) (b : Bytes) :
    Store.find (Store.insert s p b) p = some b := by
  simp [Store.insert, Store.find]

theorem Store.find_erase_self (s : Store) (p : Path) :
    Store.find (Store.erase s p) p = none := by
  induction s with
  | nil => rfl
  | cons e rest ih =>
      obtain ⟨q, b⟩ := e
      by_cases h : q = p <;> simp [Store.erase, Store.find, h, ih]

theorem Store.find_erase_ne (s : Store) (p q : Path) (h : q ≠ p) :
    Store.find (Store.erase s p) q = Store.find s q := by
  induction s with
  | nil => rfl
  | cons e rest ih =>
      obtain ⟨r, b⟩ := e
      by_cases hr : r = p
      · subst hr
        simp [Store.erase, Store.find, Ne.symm h, ih]
      · by_cases hq : r = q
        · subst hq
          simp [Store.erase, Store.find, hr]
        · simp [Store.erase, Store.find, hr, hq, ih]

theorem Store.find_insert_ne (s : Store) (p q : Path) (b : Bytes) (h : q ≠ p) :
    Store.find (Store.insert s p b) q = Store.find s q := by
  simp [Store.insert, Store.find, Ne.symm h, Store.find_erase_ne s p q h]

theorem Store.erase_of_find_none (s : Store) (p : Path)
    (h : Store.find s p = none) : Store.erase s p = s := by
  induction s with
  | nil => rfl
  | cons e rest ih =>
      obtain ⟨q, b⟩ := e
      by_cases hq : q = p
      · simp [Store.find, hq] at h
      · simp [Store.find, hq] at h
        simp [Store.erase, hq, ih h]

/-- Immutable object descriptor, translated from the spec's `ObjectMeta`
(`location`, `size`); the timestamp plays no role in the claims and is
omitted. -/
structure ObjectMeta where
  location : Path
  size : Nat
deriving DecidableEq, Repr

/-- The metadata produced for an object at `p` holding `b`. -/
def metaOf (p : Path) (b : Bytes) : ObjectMeta :=
  ⟨p, b.length⟩

/-- The aggregated output of a delimiter-aware listing, translated from the
spec's `ListResult` (`objects`, `common_prefixes`). -/
structure ListResult where
  objects : List ObjectMeta
  commonPrefixes : List Path
deriving DecidableEq, Repr

/-- Modelled from the spec: `get(location)` "fetches the full object; fails
with `NotFound` if absent".  Models `_internal.ObjectStore.get`, which is
not part of this repository's sources. -/
def innerGet (s : Store) (p : Path) : Except StoreError Bytes :=
  match Store.find s p with
  | some b => .ok b
  | none => .error .notFound

/-- Modelled from the spec: `head(location)` "fails with `NotFound` if no
object exists at `location`", otherwise returns the object's metadata. -/
def innerHead (s : Store) (p : Path) : Except StoreError ObjectMeta :=
  match Store.find s p with
  | some b => .ok (metaOf p b)
  | none => .error .notFound

/-- Modelled from the spec: `put(location, bytes)` "writes the full byte
payload to `location`", unconditionally overwriting an existing object. -/
def innerPut (s : Store) (p : Path) (b : Bytes) : Store × Except StoreError Unit :=
  (Store.insert s p b, .ok ())

/-- Modelled from the spec: `get_range(location, start, length)` "returns
exactly `length` bytes beginning at zero-based offset `start`", fails with
`OutOfRange` "if `start + length` exceeds object size, or if `start` is
itself beyond the object's size", fails with `NotFound` if the object does
not exist, and "must never silently truncate". -/
def innerGetRange (s : Store) (p : Path) (start length : Nat) :
    Except StoreError Bytes :=
  match Store.find s p with
  | none => .error .notFound
  | some b =>
      if start + length ≤ b.length then .ok ((b.drop start).take length)
      else .error .outOfRange

/-- Modelled from the spec: `delete(location)` removes the object, and
"deleting a non-existent location is not an error (idempotent)" — a backend
`NotFound` is normalized to a successful no-op. -/
def innerDelete (s : Store) (p : Path) : Store × Except StoreError Unit :=
  (Store.erase s p, .ok ())

/-- Modelled from the spec: `copy(src, dst)` "duplicates bytes from `src`
to `dst`, overwriting any existing object at `dst`. Fails with `NotFound`
if `src` does not exist." -/
def innerCopy (s : Store) (src dst : Path) : Store × Except StoreError Unit :=
  match Store.find s src with
  | none => (s, .error .notFound)
  | some b => (Store.insert s dst b, .ok ())

/-- Modelled from the spec: `copy_if_not_exists(src, dst)` is "as `copy`,
but fails with `AlreadyExists` if `dst` already has an object". -/
def innerCopyIfNotExists (s : Store) (src dst : Path) :
    Store × Except StoreError Unit :=
  match Store.find s dst with
  | some _ => (s, .error .alreadyExists)
  | none => innerCopy s src dst

/-- Modelled from the spec: `rename(src, dst)` is "logically a copy
followed by deleting `src`", overwriting `dst` if present; the delete
happens only after the copy succeeds. -/
def innerRename (s : Store) (src dst : Path) : Store × Except StoreError Unit :=
  match innerCopy s src dst with
  | (s1, .ok _) => innerDelete s1 src
  | (s1, .error e) => (s1, .error e)

/-- Modelled from the spec: `rename_if_not_exists(src, dst)` fails with
`AlreadyExists` if `dst` already exists, leaving `src` untouched; otherwise
it behaves as `rename`. -/
def innerRenameIfNotExists (s : Store) (src dst : Path) :
    Store × Except StoreError Unit :=
  match Store.find s dst with
  | some _ => (s, .error .alreadyExists)
  | none => innerRename s src dst

/-- Does the candidate prefix match the entry, segment-wise?
Modelled from the spec: "prefix matching is segment-based: prefix `a/b`
matches `a/b/c` but not `a/bc`"; a `None` prefix matches everything. -/
def matchesPre (pre : Option Path) (p : Path) : Bool :=
  match pre with
  | none => true
  | some q => q.segments.isPrefixOf p.segments

/-- Modelled from the spec: `list(prefix?)` "returns metadata for every
object whose path starts with the given prefix's segments"; omitting the
prefix lists the entire store. -/
def innerList (s : Store) (pre : Option Path) : List ObjectMeta :=
  (s.filter (fun e => matchesPre pre e.1)).map (fun e => metaOf e.1 e.2)

/-- The segments of `p` that remain after removing the leading segments
`q`, or `none` when `q` is not a segment-wise prefix of `p`. -/
def stripPre (q p : List String) : Option (List String) :=
  match q, p with
  | [], rest => some rest
  | _ :: _, [] => none
  | a :: q', b :: p' => if a = b then stripPre q' p' else none

/-- Modelled from the spec: `list_with_delimiter(prefix?)` partitions the
matching objects — "objects sharing the full path depth (no further nested
segments past the prefix) go into `objects`; objects with deeper nesting
are collapsed into a `common_prefixes` entry for their first differing
segment beyond the prefix" (each such prefix listed once). -/
def innerListWithDelimiter (s : Store) (pre : Option Path) : ListResult :=
  let q := (pre.map Path.segments).getD []
  let objs := s.filterMap (fun e =>
    match stripPre q e.1.segments with
    | some [_] => some (metaOf e.1 e.2)
    | _ => none)
  let dirs := (s.filterMap (fun e =>
    match stripPre q e.1.segments with
    | some (x :: _ :: _) => some (Path.mk (q ++ [x]))
    | _ => none)).dedup
  ⟨objs, dirs⟩

/-! ## The non-blocking backend entry points

Modelled from the spec (§4.6): "Both modes must be backed by the same
underlying logic and must produce identical results and identical error
classification for the same store state — they differ only in how the
caller is scheduled, not in semantics."  Scheduling is outside a shallow
embedding, so each `_internal` async operation is modelled as the function
computed by its blocking counterpart. -/

/-- Modelled from the spec: the non-blocking `get` computes the same
function as the blocking one. -/
def innerGetAsync : Store → Path → Except StoreError Bytes := innerGet

/-- Modelled from the spec: the non-blocking `head` computes the same
function as the blocking one. -/
def innerHeadAsync : Store → Path → Except StoreError ObjectMeta := innerHead

/-- Modelled from the spec: the non-blocking `put` computes the same
function as the blocking one. -/
def innerPutAsync : Store → Path → Bytes → Store × Except StoreError Unit := innerPut

/-- Modelled from the spec: the non-blocking `get_range` computes the same
function as the blocking one. -/
def innerGetRangeAsync : Store → Path → Nat → Nat → Except StoreError Bytes :=
  innerGetRange

/-- Modelled from the spec: the non-blocking `delete` computes the same
function as the blocking one. -/
def innerDeleteAsync : Store → Path → Store × Except StoreError Unit := innerDelete

/-- Modelled from the spec: the non-blocking `copy` computes the same
function as the blocking one. -/
def innerCopyAsync : Store → Path → Path → Store × Except StoreError Unit := innerCopy

/-- Modelled from the spec: the non-blocking `copy_if_not_exists` computes
the same function as the blocking one. -/
def innerCopyIfNotExistsAsync : Store → Path → Path → Store × Except StoreError Unit :=
  innerCopyIfNotExists

/-- Modelled from the spec: the non-blocking `rename` computes the same
function as the blocking one. -/
def innerRenameAsync : Store → Path → Path → Store × Except StoreError Unit :=
  innerRename

/-- Modelled from the spec: the non-blocking `rename_if_not_exists`
computes the same function as the blocking one. -/
def innerRenameIfNotExistsAsync : Store → Path → Path → Store × Except StoreError Unit :=
  innerRenameIfNotExists

/-- Modelled from the spec: the non-blocking `list` computes the same
function as the blocking one. -/
def innerListAsync : Store → Option Path → List ObjectMeta := innerList

/-- Modelled from the spec: the non-blocking `list_with_delimiter` computes
the same function as the blocking one. -/
def innerListWithDelimiterAsync : Store → Option Path → ListResult :=
  innerListWithDelimiter

/-! ## The façade, translated from `class ObjectStore` in `__init__.py`

Each wrapper coerces its arguments with `_as_path` / `_as_bytes` and
delegates to the `_internal` operation.  A Python exception raised by the
coercion or by the backend is modelled as an `.error` result; a raising
call leaves the store unchanged. -/

/-- Python truthiness of a `PathLike`: `""` and `[]` are falsy; a `Path`
extension object is truthy (it defines neither `__bool__` nor `__len__`). -/
def PathLike.truthy : PathLike → Bool
  | .str s => s ≠ ""
  | .segs l => !l.isEmpty
  | .path _ => true

/-- Translated from the prefix handling shared by the four listing
wrappers: `prefix_ = _as_path(prefix) if prefix else None`. -/
def coercePre (pre : Option PathLike) : Except StoreError (Option Path) :=
  match pre with
  | none => .ok none
  | some pl => if pl.truthy then (asPath pl).map some else .ok none

/-- Translated from `ObjectStore.get`:
`return super().get(_as_path(location))`. -/
def facadeGet (s : Store) (location : PathLike) : Except StoreError Bytes :=
  match asPath location with
  | .error e => .error e
  | .ok p => innerGet s p

/-- Translated from `ObjectStore.get_async`: its body delegates to the
blocking inner operation, `return super().get(_as_path(location))`. -/
def facadeGetAsync (s : Store) (location : PathLike) : Except StoreError Bytes :=
  match asPath location with
  | .error e => .error e
  | .ok p => innerGet s p

/-- Translated from `ObjectStore.head`:
`return super().head(_as_path(location))`. -/
def facadeHead (s : Store) (location : PathLike) : Except StoreError ObjectMeta :=
  match asPath location with
  | .error e => .error e
  | .ok p => innerHead s p

/-- Translated from `ObjectStore.head_async`:
`return await super().head_async(_as_path(location))`. -/
def facadeHeadAsync (s : Store) (location : PathLike) : Except StoreError ObjectMeta :=
  match asPath location with
  | .error e => .error e
  | .ok p => innerHeadAsync s p

/-- Translated from `ObjectStore.put`:
`return super().put(_as_path(location), _as_bytes(bytes))`. -/
def facadePut (s : Store) (location : PathLike) (b : BytesLike) :
    Store × Except StoreError Unit :=
  match asPath location with
  | .error e => (s, .error e)
  | .ok p => innerPut s p (asBytes b)

/-- Translated from `ObjectStore.put_async`:
`return await super().put_async(_as_path(location), _as_bytes(bytes))`. -/
def facadePutAsync (s : Store) (location : PathLike) (b : BytesLike) :
    Store × Except StoreError Unit :=
  match asPath location with
  | .error e => (s, .error e)
  | .ok p => innerPutAsync s p (asBytes b)

/-- Translated from `ObjectStore.get_range`:
`return super().get_range(_as_path(location), start, length)`. -/
def facadeGetRange (s : Store) (location : PathLike) (start length : Nat) :
    Except StoreError Bytes :=
  match asPath location with
  | .error e => .error e
  | .ok p => innerGetRange s p start length

/-- Translated from `ObjectStore.get_range_async`:
`return await super().get_range_async(_as_path(location), start, length)`. -/
def facadeGetRangeAsync (s : Store) (location : PathLike) (start length : Nat) :
    Except StoreError Bytes :=
  match asPath location with
  | .error e => .error e
  | .ok p => innerGetRangeAsync s p start length

/-- Translated from `ObjectStore.delete`:
`return super().delete(_as_path(location))`. -/
def facadeDelete (s : Store) (location : PathLike) :
    Store × Except StoreError Unit :=
  match asPath location with
  | .error e => (s, .error e)
  | .ok p => innerDelete s p

/-- Translated from `ObjectStore.delete_async`:
`return await super().delete_async(_as_path(location))`. -/
def facadeDeleteAsync (s : Store) (location : PathLike) :
    Store × Except StoreError Unit :=
  match asPath location with
  | .error e => (s, .error e)
  | .ok p => innerDeleteAsync s p

/-- Translated from `ObjectStore.copy`:
`return super().copy(_as_path(src), _as_path(dst))`. -/
def facadeCopy (s : Store) (src dst : PathLike) :
    Store × Except StoreError Unit :=
  match asPath src with
  | .error e => (s, .error e)
  | .ok ps =>
      match asPath dst with
      | .error e => (s, .error e)
      | .ok pd => innerCopy s ps pd

/-- Translated from `ObjectStore.copy_async`:
`return await super().copy_async(_as_path(src), _as_path(dst))`. -/
def facadeCopyAsync (s : Store) (src dst : PathLike) :
    Store × Except StoreError Unit :=
  match asPath src with
  | .error e => (s, .error e)
  | .ok ps =>
      match asPath dst with
      | .error e => (s, .error e)
      | .ok pd => innerCopyAsync s ps pd

/-- Translated from `ObjectStore.copy_if_not_exists`:
`return super().copy_if_not_exists(_as_path(src), _as_path(dst))`. -/
def facadeCopyIfNotExists (s : Store) (src dst : PathLike) :
    Store × Except StoreError Unit :=
  match asPath src with
  | .error e => (s, .error e)
  | .ok ps =>
      match asPath dst with
      | .error e => (s, .error e)
      | .ok pd => innerCopyIfNotExists s ps pd

/-- Translated from `ObjectStore.copy_if_not_exists_async`:
`return await super().copy_if_not_exists_async(_as_path(src), _as_path(dst))`. -/
def facadeCopyIfNotExistsAsync (s : Store) (src dst : PathLike) :
    Store × Except StoreError Unit :=
  match asPath src with
  | .error e => (s, .error e)
  | .ok ps =>
      match asPath dst with
      | .error e => (s, .error e)
      | .ok pd => innerCopyIfNotExistsAsync s ps pd

/-- Translated from `ObjectStore.rename`:
`return super().rename(_as_path(src), _as_path(dst))`. -/
def facadeRename (s : Store) (src dst : PathLike) :
    Store × Except StoreError Unit :=
  match asPath src with
  | .error e => (s, .error e)
  | .ok ps =>
      match asPath dst with
      | .error e => (s, .error e)
      | .ok pd => innerRename s ps pd

/-- Translated from `ObjectStore.rename_async`:
`return await super().rename_async(_as_path(src), _as_path(dst))`. -/
def facadeRenameAsync (s : Store) (src dst : PathLike) :
    Store × Except StoreError Unit :=
  match asPath src with
  | .error e => (s, .error e)
  | .ok ps =>
      match asPath dst with
      | .error e => (s, .error e)
      | .ok pd => innerRenameAsync s ps pd

/-- Translated from `ObjectStore.rename_if_not_exists`:
`return super().rename_if_not_exists(_as_path(src), _as_path(dst))`. -/
def facadeRenameIfNotExists (s : Store) (src dst : PathLike) :
    Store × Except StoreError Unit :=
  match asPath src with
  | .error e => (s, .error e)
  | .ok ps =>
      match asPath dst with
      | .error e => (s, .error e)
      | .ok pd => innerRenameIfNotExists s ps pd

/-- Translated from `ObjectStore.rename_if_not_exists_async`:
`return await super().rename_if_not_exists_async(_as_path(src), _as_path(dst))`. -/
def facadeRenameIfNotExistsAsync (s : Store) (src dst : PathLike) :
    Store × Except StoreError Unit :=
  match asPath src with
  | .error e => (s, .error e)
  | .ok ps =>
      match asPath dst with
      | .error e => (s, .error e)
      | .ok pd => innerRenameIfNotExistsAsync s ps pd

/-- Translated from `ObjectStore.list`:
`prefix_ = _as_path(prefix) if prefix else None; return super().list(prefix_)`. -/
def facadeList (s : Store) (pre : Option PathLike) :
    Except StoreError (List ObjectMeta) :=
  match coercePre pre with
  | .error e => .error e
  | .ok q => .ok (innerList s q)

/-- Translated from `ObjectStore.list_async`:
`prefix_ = _as_path(prefix) if prefix else None; return await super().list_async(prefix_)`. -/
def facadeListAsync (s : Store) (pre : Option PathLike) :
    Except StoreError (List ObjectMeta) :=
  match coercePre pre with
  | .error e => .error e
  | .ok q => .ok (innerListAsync s q)

/-- Translated from `ObjectStore.list_with_delimiter`:
`prefix_ = _as_path(prefix) if prefix else None; return super().list_with_delimiter(prefix_)`. -/
def facadeListWithDelimiter (s : Store) (pre : Option PathLike) :
    Except StoreError ListResult :=
  match coercePre pre with
  | .error e => .error e
  | .ok q => .ok (innerListWithDelimiter s q)

/-- Translated from `ObjectStore.list_with_delimiter_async`:
`prefix_ = _as_path(prefix) if prefix else None; return await super().list_with_delimiter_async(prefix_)`. -/
def facadeListWithDelimiterAsync (s : Store) (pre : Option PathLike) :
    Except StoreError ListResult :=
  match coercePre pre with
  | .error e => .error e
  | .ok q => .ok (innerListWithDelimiterAsync s q)

/-! ## Claims -/

/-- C1: for every path `p` and byte payload `b`, `put(p, b)` followed by
`get(p)` on the same store returns exactly `b` — the round-trip of a write
and a read reproduces the written bytes (for any path-like input that
coerces to a valid `Path`). -/
theorem spec_C1_put_get_roundtrip (s : Store) (loc : PathLike) (b : BytesLike)
    (p : Path) (h : asPath loc = .ok p) :
    facadeGet (facadePut s loc b).1 loc = .ok (asBytes b) := by
  simp [facadePut, facadeGet, h, innerPut, innerGet]

/-- Witness for C1 at a concrete store, path and payload. -/
theorem spec_C1_witness :
    asPath (.str "test_dir/test_file.json") =
      .ok ⟨["test_dir", "test_file.json"]⟩ ∧
    facadeGet
      (facadePut [] (.str "test_dir/test_file.json") (.bytes [1, 2, 3])).1
      (.str "test_dir/test_file.json") = .ok [1, 2, 3] :=
  ⟨by rfl,
   spec_C1_put_get_roundtrip [] (.str "test_dir/test_file.json")
     (.bytes [1, 2, 3]) ⟨["test_dir", "test_file.json"]⟩ (by rfl)⟩

/-- C2: for an object at `p` with content `b` and `start ≥ 0`, `length > 0`:
when `start + length ≤ len(b)`, `get_range(p, start, length)` returns
exactly `b[start : start+length]`, which has exactly `length` bytes; when
`start + length > len(b)` — in particular when `start` is itself beyond the
object's size — it fails with `OutOfRange` and never returns a short
read. -/
theorem spec_C2_get_range_exact_or_out_of_range (s : Store) (loc : PathLike)
    (p : Path) (b : Bytes) (start length : Nat)
    (hp : asPath loc = .ok p) (hb : Store.find s p = some b)
    (hlen : 0 < length) :
    (start + length ≤ b.length →
      facadeGetRange s loc start length = .ok ((b.drop start).take length) ∧
      ((b.drop start).take length).length = length) ∧
    (b.length < start + length →
      facadeGetRange s loc start length = .error .outOfRange) ∧
    (b.length < start →
      facadeGetRange s loc start length = .error .outOfRange) := by
  refine ⟨fun hle => ⟨?_, ?_⟩, fun hgt => ?_, fun hgt => ?_⟩
  · simp [facadeGetRange, hp, innerGetRange, hb, hle]
  · simp only [List.length_take, List.length_drop]
    omega
  · simp only [facadeGetRange, hp, innerGetRange, hb]
    rw [if_neg (by omega)]
  · simp only [facadeGetRange, hp, innerGetRange, hb]
    rw [if_neg (by omega)]

/-- Witness for C2 at a concrete store: an in-bounds read of two bytes and
the out-of-range behaviour of the same theorem instance. -/
theorem spec_C2_witness :
    (asPath (.path ⟨["a"]⟩) = .ok ⟨["a"]⟩ ∧
      Store.find [(⟨["a"]⟩, [10, 20, 30])] ⟨["a"]⟩ = some [10, 20, 30] ∧
      0 < 2) ∧
    facadeGetRange [(⟨["a"]⟩, [10, 20, 30])] (.path ⟨["a"]⟩) 1 2 =
      .ok [20, 30] ∧
    facadeGetRange [(⟨["a"]⟩, [10, 20, 30])] (.path ⟨["a"]⟩) 2 2 =
      .error .outOfRange := by
  refine ⟨⟨rfl, rfl, by decide⟩, ?_, ?_⟩
  · have h := (spec_C2_get_range_exact_or_out_of_range
      [(⟨["a"]⟩, [10, 20, 30])] (.path ⟨["a"]⟩) ⟨["a"]⟩ [10, 20, 30] 1 2
      rfl rfl (by decide)).1 (by decide)
    exact h.1
  · exact ((spec_C2_get_range_exact_or_out_of_range
      [(⟨["a"]⟩, [10, 20, 30])] (.path ⟨["a"]⟩) ⟨["a"]⟩ [10, 20, 30] 2 2
      rfl rfl (by decide)).2).1 (by decide)

/-- C8: deleting a location at which no object exists is not an error —
`delete` succeeds as an idempotent no-op and the store state is unchanged
by the call. -/
theorem spec_C8_delete_missing_is_noop (s : Store) (loc : PathLike) (p : Path)
    (hp : asPath loc = .ok p) (habs : Store.find s p = none) :
    (facadeDelete s loc).2 = .ok () ∧ (facadeDelete s loc).1 = s := by
  simp [facadeDelete, hp, innerDelete, Store.erase_of_find_none s p habs]

/-- Witness for C8: deleting the absent `"b"` from a store holding only
`"a"` succeeds and leaves the store unchanged. -/
theorem spec_C8_witness :
    (asPath (.str "b") = .ok ⟨["b"]⟩ ∧
      Store.find [(⟨["a"]⟩, [1])] ⟨["b"]⟩ = none) ∧
    (facadeDelete [(⟨["a"]⟩, [1])] (.str "b")).2 = .ok () ∧
    (facadeDelete [(⟨["a"]⟩, [1])] (.str "b")).1 = [(⟨["a"]⟩, [1])] :=
  ⟨⟨by rfl, by decide⟩,
   spec_C8_delete_missing_is_noop [(⟨["a"]⟩, [1])] (.str "b") ⟨["b"]⟩
     (by rfl) (by decide)⟩

/-- C3: for every operation of the store, the blocking entry point and the
corresponding non-blocking entry point compute the same function on store
states and arguments — identical results and identical error kinds
(including `get_async`, whose body delegates to the blocking inner
`get`). -/
theorem spec_C3_sync_async_equivalence :
    facadeGetAsync = facadeGet ∧
    facadeHeadAsync = facadeHead ∧
    facadePutAsync = facadePut ∧
    facadeGetRangeAsync = facadeGetRange ∧
    facadeDeleteAsync = facadeDelete ∧
    facadeCopyAsync = facadeCopy ∧
    facadeCopyIfNotExistsAsync = facadeCopyIfNotExists ∧
    facadeRenameAsync = facadeRename ∧
    facadeRenameIfNotExistsAsync = facadeRenameIfNotExists ∧
    facadeListAsync = facadeList ∧
    facadeListWithDelimiterAsync = facadeListWithDelimiter :=
  ⟨rfl, rfl, rfl, rfl, rfl, rfl, rfl, rfl, rfl, rfl, rfl⟩

/-- C4 counterexample: the claim quantifies over every pair of paths, but
at `src = dst` it fails — with `"a"` holding bytes `[1, 2]`,
`rename("a", "a")` succeeds (copy then delete of the source removes the
object), after which `get` at the destination fails with `NotFound`
instead of returning the original content. -/
theorem spec_C4_counterexample :
    Store.find [(⟨["a"]⟩, [1, 2])] ⟨["a"]⟩ = some [1, 2] ∧
    (facadeRename [(⟨["a"]⟩, [1, 2])] (.str "a") (.str "a")).2 = .ok () ∧
    facadeGet (facadeRename [(⟨["a"]⟩, [1, 2])] (.str "a") (.str "a")).1
      (.str "a") = .error .notFound :=
  ⟨rfl, rfl, rfl⟩

/-- C4 (amended to distinct source and destination): for every pair of
paths `src ≠ dst` where `src` holds content `b` (`dst` may or may not
exist), `rename(src, dst)` succeeds, `get(dst)` returns exactly `b` —
overwriting any previous `dst` content — and `get(src)` fails with
`NotFound`. -/
theorem spec_C4_rename_moves_content (s : Store) (src dst : PathLike)
    (ps pd : Path) (b : Bytes)
    (hs : asPath src = .ok ps) (hd : asPath dst = .ok pd)
    (hne : ps ≠ pd) (hb : Store.find s ps = some b) :
    (facadeRename s src dst).2 = .ok () ∧
    facadeGet (facadeRename s src dst).1 dst = .ok b ∧
    facadeGet (facadeRename s src dst).1 src = .error .notFound := by
  refine ⟨?_, ?_, ?_⟩
  · simp [facadeRename, hs, hd, innerRename, innerCopy, hb, innerDelete]
  · simp [facadeRename, hs, hd, innerRename, innerCopy, hb, innerDelete,
      facadeGet, innerGet,
      Store.find_erase_ne (Store.insert s pd b) ps pd (Ne.symm hne)]
  · simp [facadeRename, hs, hd, innerRename, innerCopy, hb, innerDelete,
      facadeGet, innerGet, Store.find_erase_self]

/-- Witness for the amended C4: renaming `"a"` (holding `[7]`) onto the
occupied `"b"` moves the content and removes the source. -/
theorem spec_C4_witness :
    (asPath (.str "a") = .ok ⟨["a"]⟩ ∧ asPath (.str "b") = .ok ⟨["b"]⟩ ∧
      (⟨["a"]⟩ : Path) ≠ ⟨["b"]⟩ ∧
      Store.find [(⟨["a"]⟩, [7]), (⟨["b"]⟩, [9])] ⟨["a"]⟩ = some [7]) ∧
    (facadeRename [(⟨["a"]⟩, [7]), (⟨["b"]⟩, [9])] (.str "a") (.str "b")).2 =
      .ok () ∧
    facadeGet (facadeRename [(⟨["a"]⟩, [7]), (⟨["b"]⟩, [9])]
      (.str "a") (.str "b")).1 (.str "b") = .ok [7] ∧
    facadeGet (facadeRename [(⟨["a"]⟩, [7]), (⟨["b"]⟩, [9])]
      (.str "a") (.str "b")).1 (.str "a") = .error .notFound :=
  ⟨⟨by rfl, by rfl, by decide, by decide⟩,
   spec_C4_rename_moves_content [(⟨["a"]⟩, [7]), (⟨["b"]⟩, [9])]
     (.str "a") (.str "b") ⟨["a"]⟩ ⟨["b"]⟩ [7]
     (by rfl) (by rfl) (by decide) (by decide)⟩

/-- C5: when `src` holds `b` and `dst` already holds an object,
`copy(src, dst)` succeeds and overwrites `dst` so that `get(dst)` returns
`b`, whereas `copy_if_not_exists(src, dst)` fails with `AlreadyExists` and
leaves the store — in particular the content at `dst` — unchanged. -/
theorem spec_C5_copy_overwrites_conditional_fails (s : Store)
    (src dst : PathLike) (ps pd : Path) (b c : Bytes)
    (hs : asPath src = .ok ps) (hd : asPath dst = .ok pd)
    (hb : Store.find s ps = some b) (hc : Store.find s pd = some c) :
    (facadeCopy s src dst).2 = .ok () ∧
    facadeGet (facadeCopy s src dst).1 dst = .ok b ∧
    (facadeCopyIfNotExists s src dst).2 = .error .alreadyExists ∧
    (facadeCopyIfNotExists s src dst).1 = s ∧
    Store.find (facadeCopyIfNotExists s src dst).1 pd = some c := by
  refine ⟨?_, ?_, ?_, ?_, ?_⟩
  · simp [facadeCopy, hs, hd, innerCopy, hb]
  · simp [facadeCopy, hs, hd, innerCopy, hb, facadeGet, innerGet]
  · simp [facadeCopyIfNotExists, hs, hd, innerCopyIfNotExists, hc]
  · simp [facadeCopyIfNotExists, hs, hd, innerCopyIfNotExists, hc]
  · simp [facadeCopyIfNotExists, hs, hd, innerCopyIfNotExists, hc]

/-- Witness for C5: copying `"a"` (holding `[1]`) over the occupied `"b"`
(holding `[2]`) overwrites it, while the conditional copy fails and leaves
the store unchanged. -/
theorem spec_C5_witness :
    (asPath (.str "a") = .ok ⟨["a"]⟩ ∧ asPath (.str "b") = .ok ⟨["b"]⟩ ∧
      Store.find [(⟨["a"]⟩, [1]), (⟨["b"]⟩, [2])] ⟨["a"]⟩ = some [1] ∧
      Store.find [(⟨["a"]⟩, [1]), (⟨["b"]⟩, [2])] ⟨["b"]⟩ = some [2]) ∧
    (facadeCopy [(⟨["a"]⟩, [1]), (⟨["b"]⟩, [2])] (.str "a") (.str "b")).2 =
      .ok () ∧
    facadeGet (facadeCopy [(⟨["a"]⟩, [1]), (⟨["b"]⟩, [2])]
      (.str "a") (.str "b")).1 (.str "b") = .ok [1] ∧
    (facadeCopyIfNotExists [(⟨["a"]⟩, [1]), (⟨["b"]⟩, [2])]
      (.str "a") (.str "b")).2 = .error .alreadyExists ∧
    (facadeCopyIfNotExists [(⟨["a"]⟩, [1]), (⟨["b"]⟩, [2])]
      (.str "a") (.str "b")).1 = [(⟨["a"]⟩, [1]), (⟨["b"]⟩, [2])] ∧
    Store.find (facadeCopyIfNotExists [(⟨["a"]⟩, [1]), (⟨["b"]⟩, [2])]
      (.str "a") (.str "b")).1 ⟨["b"]⟩ = some [2] :=
  ⟨⟨by rfl, by rfl, by decide, by decide⟩,
   spec_C5_copy_overwrites_conditional_fails
     [(⟨["a"]⟩, [1]), (⟨["b"]⟩, [2])] (.str "a") (.str "b")
     ⟨["a"]⟩ ⟨["b"]⟩ [1] [2] (by rfl) (by rfl) (by decide) (by decide)⟩

/-- C7: `list(q)` returns metadata for exactly the objects whose path
segment sequence starts with `q`'s segments; matching is segment-based, so
listing prefix `a/b` includes an object `a/b/c` and excludes an object
`a/bc`. -/
theorem spec_C7_list_is_segment_based :
    (∀ (s : Store) (q : Path) (m : ObjectMeta),
      m ∈ innerList s (some q) ↔
        ∃ b, (m.location, b) ∈ s ∧ m.size = b.length ∧
          q.segments <+: m.location.segments) ∧
    facadeList [(⟨["a", "b", "c"]⟩, [1]), (⟨["a", "bc"]⟩, [2])]
      (some (.str "a/b")) = .ok [metaOf ⟨["a", "b", "c"]⟩ [1]] := by
  constructor
  · intro s q m
    simp only [innerList, List.mem_map, List.mem_filter, matchesPre]
    constructor
    · rintro ⟨⟨p, b⟩, ⟨hmem, hpre⟩, rfl⟩
      exact ⟨b, hmem, rfl, List.isPrefixOf_iff_prefix.mp hpre⟩
    · rintro ⟨b, hmem, hsize, hpre⟩
      refine ⟨(m.location, b), ⟨hmem, List.isPrefixOf_iff_prefix.mpr hpre⟩, ?_⟩
      cases m with
      | mk loc size =>
          simp only [metaOf] at hsize ⊢
          exact congrArg (ObjectMeta.mk loc) hsize.symm
  · rfl

/-- Witness for C7: the characterization applied at the concrete store —
the object `a/b/c` is listed under the prefix `a/b`. -/
theorem spec_C7_witness :
    metaOf ⟨["a", "b", "c"]⟩ [1] ∈
      innerList [(⟨["a", "b", "c"]⟩, [1]), (⟨["a", "bc"]⟩, [2])]
        (some ⟨["a", "b"]⟩) :=
  (spec_C7_list_is_segment_based.1
    [(⟨["a", "b", "c"]⟩, [1]), (⟨["a", "bc"]⟩, [2])] ⟨["a", "b"]⟩
    (metaOf ⟨["a", "b", "c"]⟩ [1])).mpr
    ⟨[1], by decide, rfl, by decide⟩

/-- C9 counterexample: the claim says a segment containing `/` supplied
through the list branch fails with `InvalidPath`, but `_as_path` joins the
list with the delimiter and re-parses, so `["a/b", "c"]` is accepted and
reinterpreted as the three segments `a`, `b`, `c`. -/
theorem spec_C9_counterexample :
    asPath (.segs ["a/b", "c"]) = .ok ⟨["a", "b", "c"]⟩ ∧
    asPath (.segs ["a/b", "c"]) ≠ .error .invalidPath :=
  ⟨rfl, fun h => by
    rw [show asPath (.segs ["a/b", "c"]) = .ok ⟨["a", "b", "c"]⟩ from rfl] at h
    exact Except.noConfusion h⟩

/-- C9 (amended): the list branch of path coercion performs no per-segment
validation of its own — it joins the supplied segments with the delimiter
and hands the result to the same parse as the string branch, so a segment
containing `/` is not rejected but reinterpreted (split) into multiple
segments. -/
theorem spec_C9_list_branch_joins_and_reparses :
    (∀ l : List String,
      asPath (.segs l) = asPath (.str (String.intercalate DELIMITER l))) ∧
    asPath (.segs ["a/b", "c"]) = asPath (.str "a/b/c") ∧
    asPath (.segs ["a/b", "c"]) = .ok ⟨["a", "b", "c"]⟩ :=
  ⟨fun _ => rfl, rfl, rfl⟩

/-- C10: the falsy prefix arguments `""` and `[]` are coerced to `None`
before dispatch, so the four listing entry points behave exactly as with
the prefix omitted, and the whole store is listed rather than the empty
value being parsed as a `Path` or rejected. -/
theorem spec_C10_falsy_listing_means_no_prefix (s : Store) :
    facadeList s (some (.str "")) = facadeList s none ∧
    facadeList s (some (.segs [])) = facadeList s none ∧
    facadeListAsync s (some (.str "")) = facadeListAsync s none ∧
    facadeListAsync s (some (.segs [])) = facadeListAsync s none ∧
    facadeListWithDelimiter s (some (.str "")) =
      facadeListWithDelimiter s none ∧
    facadeListWithDelimiter s (some (.segs [])) =
      facadeListWithDelimiter s none ∧
    facadeListWithDelimiterAsync s (some (.str "")) =
      facadeListWithDelimiterAsync s none ∧
    facadeListWithDelimiterAsync s (some (.segs [])) =
      facadeListWithDelimiterAsync s none ∧
    facadeList s none = .ok (s.map (fun e => metaOf e.1 e.2)) := by
  refine ⟨rfl, rfl, rfl, rfl, rfl, rfl, rfl, rfl, ?_⟩
  simp [facadeList, coercePre, innerList, matchesPre]

theorem stripPre_append (q r : List String) : stripPre q (q ++ r) = some r := by
  induction q with
  | nil => rfl
  | cons a q ih => simp [stripPre, ih]

/-- C6: `list_with_delimiter(q)` partitions the matching objects — an
object exactly one segment below the prefix `q` appears in `objects`, and
an object nested more than one segment below `q` contributes only a
`common_prefixes` entry for its first segment beyond `q`, never an entry in
`objects`; concretely, with stored objects `a/x` and `a/b/y`,
`list_with_delimiter("a")` yields `objects = [a/x]` and
`common_prefixes = {a/b}`. -/
theorem spec_C6_delimiter_partition :
    (∀ (s : Store) (q p : Path) (b : Bytes) (x : String) (t : List String),
      (p, b) ∈ s → p.segments = q.segments ++ (x :: t) →
      (t = [] → metaOf p b ∈ (innerListWithDelimiter s (some q)).objects) ∧
      (t ≠ [] →
        (∀ m ∈ (innerListWithDelimiter s (some q)).objects, m.location ≠ p) ∧
        Path.mk (q.segments ++ [x]) ∈
          (innerListWithDelimiter s (some q)).commonPrefixes)) ∧
    facadeListWithDelimiter
      [(⟨["a", "x"]⟩, [1]), (⟨["a", "b", "y"]⟩, [2])] (some (.str "a")) =
      .ok ⟨[metaOf ⟨["a", "x"]⟩ [1]], [⟨["a", "b"]⟩]⟩ := by
  constructor
  · intro s q p b x t hmem hsegs
    constructor
    · rintro rfl
      simp only [innerListWithDelimiter, Option.map_some', Option.getD_some]
      exact List.mem_filterMap.mpr
        ⟨(p, b), hmem, by simp [hsegs, stripPre_append]⟩
    · intro ht
      obtain ⟨y, t', rfl⟩ : ∃ y t', t = y :: t' := by
        cases t with
        | nil => exact absurd rfl ht
        | cons y t' => exact ⟨y, t', rfl⟩
      constructor
      · intro m hm hloc
        simp only [innerListWithDelimiter, Option.map_some', Option.getD_some]
          at hm
        obtain ⟨e, he, hfe⟩ := List.mem_filterMap.mp hm
        rcases hstrip : stripPre q.segments e.1.segments with _ | r
        · simp [hstrip] at hfe
        · match r with
          | [] => simp [hstrip] at hfe
          | [z] =>
              simp only [hstrip] at hfe
              have hml : m.location = e.1 := by
                simp only [metaOf] at hfe
                cases hfe
                rfl
              rw [hloc] at hml
              rw [← hml, hsegs, stripPre_append] at hstrip
              simp at hstrip
          | z :: z' :: zs => simp [hstrip] at hfe
      · simp only [innerListWithDelimiter, Option.map_some', Option.getD_some]
        rw [List.mem_dedup]
        exact List.mem_filterMap.mpr
          ⟨(p, b), hmem, by simp [hsegs, stripPre_append]⟩
  · rfl

/-- Witness for C6 at the concrete store of the claim's example: the deep
object `a/b/y` never appears in `objects` and contributes the common
prefix `a/b`. -/
theorem spec_C6_witness :
    ((⟨["a", "b", "y"]⟩, [2]) ∈
        ([(⟨["a", "x"]⟩, [1]), (⟨["a", "b", "y"]⟩, [2])] : Store) ∧
      (⟨["a", "b", "y"]⟩ : Path).segments = ["a"] ++ ("b" :: ["y"])) ∧
    (∀ m ∈ (innerListWithDelimiter
        [(⟨["a", "x"]⟩, [1]), (⟨["a", "b", "y"]⟩, [2])]
        (some ⟨["a"]⟩)).objects, m.location ≠ ⟨["a", "b", "y"]⟩) ∧
    Path.mk (["a"] ++ ["b"]) ∈ (innerListWithDelimiter
        [(⟨["a", "x"]⟩, [1]), (⟨["a", "b", "y"]⟩, [2])]
        (some ⟨["a"]⟩)).commonPrefixes :=
  ⟨⟨by decide, rfl⟩,
   (spec_C6_delimiter_partition.1
     [(⟨["a", "x"]⟩, [1]), (⟨["a", "b", "y"]⟩, [2])]
     ⟨["a"]⟩ ⟨["a", "b", "y"]⟩ [2] "b" ["y"]
     (by decide) rfl).2 (by decide)⟩

end ObjectStorePython
